import Mathlib

/-!
The csvista row-query engine: a shallow embedding

This file embeds the row-query core of the csvista repository in Lean 4 and
proves/refutes the specification claims about it.

The repository contains two historical variants of the data service:

* the cache-backed variant (`src/unnamed/part_001`): rows are read from an
  in-memory cache and filtering (case-insensitive substring), sorting
  (numeric-aware, case-insensitive `localeCompare`) and pagination are
  performed in plain JavaScript; embedded below in namespace `CacheService`.
* the Dexie/IndexedDB variant (`src/unnamed/part_000`): filtering and ordering
  are delegated to index scans of the storage engine; embedded below in
  namespace `DexieService`.  The storage engine itself (Dexie/IndexedDB) is an
  external collaborator, so its collection operations are modelled from their
  documented semantics: an index scan yields rows that carry the indexed field,
  ordered by (indexed value in code-unit order, primary key); the primary key
  is the auto-increment insertion position.

JavaScript string primitives (`trim`, `toLocaleLowerCase`, `includes`,
`startsWith`, `replaceAll`, `localeCompare`) are modelled as executable
char-list functions below, because the corresponding Lean `String` functions
do not reduce in the kernel.  `toLocaleLowerCase` is modelled as ASCII
lowercasing and `localeCompare(undefined, \x7bnumeric: true, sensitivity:
"base"\x7d)` as the numeric-aware comparison of lowercased strings in which a
maximal digit run compares by its numeric value.
-/

namespace CsVista

open Batteries

/-! ## JavaScript string primitives -/

/-- Whitespace test used by the model of `String.prototype.trim`. -/
def jsIsWs (c : Char) : Bool := c = ' ' || c = '\t' || c = '\n' || c = '\r'

/-- Model of `String.prototype.trim` on the character list. -/
def trimChars (l : List Char) : List Char :=
  ((l.dropWhile jsIsWs).reverse.dropWhile jsIsWs).reverse

/-- Model of `String.prototype.trim`. -/
def jsTrim (s : String) : String := ⟨trimChars s.data⟩

/-- ASCII lowercasing of one character; model of `toLocaleLowerCase`. -/
def jsLowerChar (c : Char) : Char :=
  if 65 ≤ c.toNat ∧ c.toNat ≤ 90 then Char.ofNat (c.toNat + 32) else c

/-- Model of `String.prototype.toLocaleLowerCase` (ASCII). -/
def jsToLower (s : String) : String := ⟨s.data.map jsLowerChar⟩

/-- Does the first list start with the second?  Model of
`String.prototype.startsWith` on character lists. -/
def beginsWith : List Char → List Char → Bool
  | _, [] => true
  | [], _ :: _ => false
  | c :: cs, d :: ds => c == d && beginsWith cs ds

/-- Model of `String.prototype.startsWith`. -/
def jsStartsWith (s pat : String) : Bool := beginsWith s.data pat.data

/-- Does `l` contain `pat` as a contiguous subsequence?  Model of
`String.prototype.includes` on character lists. -/
def containsChars (pat : List Char) : List Char → Bool
  | [] => beginsWith [] pat
  | c :: cs => beginsWith (c :: cs) pat || containsChars pat cs

/-- Model of `String.prototype.includes`. -/
def jsIncludes (s pat : String) : Bool := containsChars pat.data s.data

/-- The single-quote character, built from its code point. -/
def squoteChar : Char := Char.ofNat 39

/-- The single-quote character as a string. -/
def squote : String := ⟨[squoteChar]⟩

/-- Model of `value.replaceAll("\x27", "\x27\x27")`: every single quote is
doubled (for a one-character pattern, `replaceAll` is exactly a per-character
expansion). -/
def escapeQuotes (s : String) : String :=
  ⟨s.data.flatMap fun c => if c = squoteChar then [squoteChar, squoteChar] else [c]⟩

/-- JavaScript truthiness of an optional string: `undefined` and `""` are
falsy (the source guards `params.field && ...`). -/
def truthy (o : Option String) : Bool := o.getD "" != ""

/-! ## Comparator infrastructure

`Ordering`-valued comparators model JavaScript sort comparators (negative /
zero / positive).  Lawfulness (`Batteries.TransCmp`) is obtained by
presenting every concrete comparator as a lexicographic combination of
pullbacks of `compare` on `Nat`. -/

/-- Lexicographic comparison of lists by a base comparator; a shorter list
precedes any strict extension of it. -/
def lexCmp (cmp : α → α → Ordering) : List α → List α → Ordering
  | [], [] => .eq
  | [], _ :: _ => .lt
  | _ :: _, [] => .gt
  | a :: as, b :: bs => (cmp a b).then (lexCmp cmp as bs)

/-- Reversed comparator: models multiplying a JavaScript comparator by `-1`. -/
def swapCmp (cmp : α → α → Ordering) (a b : α) : Ordering := (cmp a b).swap

/-! ## The numeric-aware case-insensitive collation key

`localeCompare(undefined, \x7bnumeric: true, sensitivity: "base"\x7d)` is
modelled by mapping a string to a list of `(class, weight)` pairs — a maximal
digit run becomes `(1, numeric value)`, any other character `c` becomes
`(0, c)` when `c` precedes the digits in code-unit order and `(2, c)` when it
follows them (after lowercasing) — and comparing those lists
lexicographically.  Every digit relates to every non-digit character the same
way in code-unit order, so this agrees with the run-by-run comparison. -/

/-- Key pair of one non-digit character. -/
def charKey (c : Char) : Nat × Nat :=
  let n := (jsLowerChar c).toNat
  (if n < 48 then 0 else 2, n)

/-- Collation key of a character list (see the section comment); the first
argument accumulates the numeric value of the digit run in progress. -/
def numKeyAux : Option Nat → List Char → List (Nat × Nat)
  | none, [] => []
  | some acc, [] => [(1, acc)]
  | none, c :: cs =>
    if c.isDigit then numKeyAux (some (c.toNat - 48)) cs
    else charKey c :: numKeyAux none cs
  | some acc, c :: cs =>
    if c.isDigit then numKeyAux (some (acc * 10 + (c.toNat - 48))) cs
    else (1, acc) :: charKey c :: numKeyAux none cs

/-- Collation key of a string. -/
def numKey (s : String) : List (Nat × Nat) := numKeyAux none s.data

/-- Lexicographic comparison of `(class, weight)` pairs. -/
def natPairCmp : Nat × Nat → Nat × Nat → Ordering :=
  compareLex (compareOn Prod.fst) (compareOn Prod.snd)

/-- Model of `localeCompare(undefined, \x7bnumeric: true, sensitivity:
"base"\x7d)`: numeric-aware, case-insensitive string comparison. -/
def cmpNumCI : String → String → Ordering := Ordering.byKey numKey (lexCmp natPairCmp)

/-- Code units of a string (model of the UTF-16 code-unit sequence; the
embedding only uses BMP characters, where the two coincide). -/
def cuKey (s : String) : List Nat := s.data.map Char.toNat

/-- Code-unit lexicographic string comparison: the order of IndexedDB string
keys and of JavaScript `<`/`>` on strings. -/
def cuCmp : String → String → Ordering := Ordering.byKey cuKey (lexCmp compare)

/-- Model of `localeCompare(undefined, \x7bsensitivity: "base"\x7d)`:
case-insensitive (not numeric-aware) string comparison. -/
def cmpCI : String → String → Ordering :=
  Ordering.byKey (fun s => cuKey (jsToLower s)) (lexCmp compare)

/-! ## A stable comparator sort

`jsSortBy` models `Array.prototype.sort(comparator)` (stable since ES2019):
an insertion sort that inserts each element after all already-placed elements
that do not compare strictly greater than it, which preserves the relative
order of elements comparing equal. -/

/-- Insert `x` into `l` after every element that `x` compares `.gt` against. -/
def insertSorted (cmp : α → α → Ordering) (x : α) : List α → List α
  | [] => [x]
  | y :: ys => if cmp x y = .gt then y :: insertSorted cmp x ys else x :: y :: ys

/-- Stable sort by a JavaScript-style comparator. -/
def jsSortBy (cmp : α → α → Ordering) : List α → List α
  | [] => []
  | x :: xs => insertSorted cmp x (jsSortBy cmp xs)

/-! ## Data model

A `Row` is a JavaScript object mapping field names to text values, modelled
as an association list in key-insertion order (JavaScript string-keyed
objects enumerate keys in insertion order and hold each key at most once). -/

/-- A display row: field name to text value, in key order. -/
abbrev Row := List (String × String)

/-- Reading `row[field]` as an optional value. -/
def rowGet (r : Row) (f : String) : Option String :=
  (r.find? fun kv => kv.1 == f).map fun kv => kv.2

/-- Reading `row[field] ?? ""`. -/
def rowValue (r : Row) (f : String) : String := (rowGet r f).getD ""

/-- The key list `Object.keys(row)`. -/
def rowKeys (r : Row) : List String := r.map fun kv => kv.1

/-- The type `SortDirection = "asc" | "desc"` (both variants). -/
inductive SortDirection
  | asc
  | desc
deriving DecidableEq, BEq, Repr

/-- The request type `QueryProjectRowsParams` (both variants): `page`/`pageSize` are JavaScript
numbers (modelled as integers, since the engine only clamps them from below),
the remaining fields are optional strings. -/
structure QueryProjectRowsParams where
  page : Int
  pageSize : Int
  sortField : Option String
  sortDirection : Option SortDirection
  filterField : Option String
  filterValue : Option String
deriving DecidableEq, Repr

/-- The result type `QueryProjectRowsResult` (both variants). -/
structure QueryProjectRowsResult where
  rows : List Row
  fields : List String
  total : Nat
  sql : String
deriving DecidableEq, Repr

/-! ## CSV normalization (identical in `part_000` and `part_001`) -/

/-- A scalar produced by the CSV parser: `null`, `undefined`, or text.  Other
scalars enter `String(value)` through their text form, so a string constructor
suffices. -/
inductive RawValue
  | vNull
  | vUndefined
  | vStr (s : String)
deriving DecidableEq, Repr

/-- Stringification `value == null ? "" : String(value)`. -/
def RawValue.toText : RawValue → String
  | .vNull => ""
  | .vUndefined => ""
  | .vStr s => s

/-- A record handed to `normalizeCsvRows`: either not an object (dropped by
the `typeof row === "object" && row !== null` guard) or a mapping given by its
entry list. -/
inductive RawRecord
  | notMapping
  | mapping (entries : List (String × RawValue))
deriving DecidableEq, Repr

/-- The function `normalizeCsvRows` (`part_001` lines 111–127, identical in `part_000`):
keep object records, drop entries whose key trims to empty (the key itself is
kept verbatim), stringify values, drop records left with no keys. -/
def normalizeCsvRows (l : List RawRecord) : List Row :=
  ((l.filterMap fun r =>
      match r with
      | .notMapping => none
      | .mapping entries => some entries).map fun entries =>
    (entries.filter fun kv => jsTrim kv.1 != "").map fun kv => (kv.1, kv.2.toText)).filter
    fun row => row != ([] : Row)

/-- The expression `rows.length > 0 ? Object.keys(rows[0]) : []` — the field list derived
from the first normalized row in `importCsv`. -/
def csvFields (rows : List Row) : List String :=
  match rows with
  | [] => []
  | r :: _ => rowKeys r

/-- The outcome of `Papa.parse` as `importCsv` consumes it: the parsed
records and the list of structural error messages. -/
structure ParseResult where
  data : List RawRecord
  errors : List String
deriving DecidableEq, Repr

/-- The message `parseResult.errors[0]?.message ?? "Unable to parse CSV file."`. -/
def firstErrorMessage (pr : ParseResult) : String :=
  pr.errors.head?.getD "Unable to parse CSV file."

/-! ## The cache-backed service (`src/unnamed/part_001`) -/

namespace CacheService

/-- Whether a row matches the filter: source line 244,
`(row[filterField] ?? "").toLocaleLowerCase().includes(queryText)`. -/
def matchesFilter (filterField queryText : String) (row : Row) : Bool :=
  jsIncludes (jsToLower (rowValue row filterField)) queryText

/-- The guard `hasFilter`: `params.filterField && normalizedFilterValue` of
source line 242. -/
def hasFilter (params : QueryProjectRowsParams) : Bool :=
  truthy params.filterField && (jsTrim (params.filterValue.getD "") != "")

/-- The sort key comparator on rows:
`(left[field] ?? "").localeCompare(right[field] ?? "", undefined,
\x7bnumeric: true, sensitivity: "base"\x7d)` (source line 153). -/
def rowKeyCmp (field : String) : Row → Row → Ordering :=
  Ordering.byKey (fun r => numKey (rowValue r field)) (lexCmp natPairCmp)

/-- The direction-adjusted comparator: multiplying the JavaScript comparator
by `-1` reverses its sign, i.e. swaps the `Ordering`. -/
def rowCmp (field : String) : SortDirection → Row → Row → Ordering
  | .asc => rowKeyCmp field
  | .desc => swapCmp (rowKeyCmp field)

/-- The function `sortRows` (source lines 147–155): a stable sort of a copy of `rows` by
the direction-adjusted numeric-aware case-insensitive comparator. -/
def sortRows (rows : List Row) (field : String) (direction : SortDirection) : List Row :=
  jsSortBy (rowCmp field direction) rows

/-- The filter step of `queryProjectRows` (source lines 241–245): keep the
rows whose `filterField` value contains the trimmed filter text
case-insensitively. -/
def queryFiltered (storedRows : List Row) (params : QueryProjectRowsParams) : List Row :=
  if hasFilter params then
    storedRows.filter
      (matchesFilter (params.filterField.getD "")
        (jsToLower (jsTrim (params.filterValue.getD ""))))
  else storedRows

/-- The filtered-and-sorted row list (`processedRows`, source lines 241–249). -/
def queryProcessed (storedRows : List Row) (params : QueryProjectRowsParams) : List Row :=
  let afterFilter := queryFiltered storedRows params
  if truthy params.sortField then
    sortRows afterFilter (params.sortField.getD "") (params.sortDirection.getD .asc)
  else afterFilter

/-- The function `buildSqlLikeQuery` (source lines 129–145) as the list of parts that the
source pushes and then joins with spaces; the filter pattern is
`LIKE \x27%value%\x27` (contains semantics) built from the *untrimmed*
`filterValue` with single quotes doubled. -/
def buildSqlParts (projectId : String) (params : QueryProjectRowsParams) : List String :=
  let escapedValue := escapeQuotes (params.filterValue.getD "")
  let ff := params.filterField.getD ""
  let sf := params.sortField.getD ""
  let offset := (max params.page 1 - 1) * max params.pageSize 1
  ["SELECT * FROM \"" ++ projectId ++ "\""]
    ++ (if truthy params.filterField && truthy params.filterValue then
          ["WHERE \"" ++ ff ++ "\" LIKE " ++ squote ++ "%" ++ escapedValue ++ "%" ++ squote]
        else [])
    ++ (if truthy params.sortField then
          ["ORDER BY \"" ++ sf ++ "\" " ++
            (if params.sortDirection == some SortDirection.desc then "DESC" else "ASC")]
        else [])
    ++ ["LIMIT " ++ toString (max params.pageSize 1) ++ " OFFSET " ++ toString offset]

/-- The function `buildSqlLikeQuery` (source lines 129–145): `parts.join(" ")`. -/
def buildSqlLikeQuery (projectId : String) (params : QueryProjectRowsParams) : String :=
  String.intercalate " " (buildSqlParts projectId params)

/-- The function `queryProjectRows` (source lines 235–262).  `storedRows`/`storedFields`
are the project's cache entry (`cachedEntry.rows`/`cachedEntry.fields`); note
that the returned `fields` is the stored field list, not a field list derived
from the returned page. -/
def queryProjectRows (projectId : String) (storedRows : List Row)
    (storedFields : List String) (params : QueryProjectRowsParams) :
    QueryProjectRowsResult :=
  let processedRows := queryProcessed storedRows params
  let page := max params.page 1
  let pageSize := max params.pageSize 1
  let startIndex := ((page - 1) * pageSize).toNat
  ⟨(processedRows.drop startIndex).take pageSize.toNat, storedFields,
    processedRows.length, buildSqlLikeQuery projectId params⟩

/-- The function `importCsv` (source lines 200–233), abstracted over one project's store
state (`none` = the project has no object store; `some rows` = a store holding
`rows`) and over the parse outcome.  The returned pair is the store state
after the call and either the thrown error message or
`\x7btotalRows, fields\x7d`.  Note `ensureProjectStore` runs *before* the
parse-error check. -/
def importCsv (store : Option (List Row)) (pr : ParseResult) :
    Option (List Row) × Except String (Nat × List String) :=
  let store := some (store.getD [])
  if pr.errors.length > 0 then
    (store, .error (firstErrorMessage pr))
  else
    let rows := normalizeCsvRows pr.data
    let fields := csvFields rows
    (some rows, .ok (rows.length, fields))

end CacheService

/-! ## The Dexie-backed service (`src/unnamed/part_000`)

The stored table is the list of rows in insertion order; the auto-increment
primary key is the position, and the separate `id` property that
`toDisplayRows` strips is left implicit.  Index scans are modelled from the
documented Dexie/IndexedDB semantics (see the header comment). -/

namespace DexieService

/-- The guard `hasFilter` (source line 301): `Boolean(params.filterField &&
normalizedFilterValue)`. -/
def hasFilter (params : QueryProjectRowsParams) : Bool :=
  truthy params.filterField && (jsTrim (params.filterValue.getD "") != "")

/-- The guard `hasSort` (source line 302): `Boolean(params.sortField)`. -/
def hasSort (params : QueryProjectRowsParams) : Bool :=
  truthy params.sortField

/-- The IndexedDB index order on an index over `field`: ascending by
(indexed string value in code-unit order, primary key). -/
def dexIdxCmp (field : String) (p q : Nat × Row) : Ordering :=
  (cuCmp (rowValue p.2 field) (rowValue q.2 field)).then (compare p.1 q.1)

/-- Membership in a `startsWithIgnoreCase(v)` index scan over `field`: the
row carries `field` and its value starts with `v` case-insensitively. -/
def dexMatches (field v : String) (r : Row) : Bool :=
  (rowGet r field).isSome && jsStartsWith (jsToLower (rowValue r field)) (jsToLower v)

/-- Model of `table.where(field).startsWithIgnoreCase(v)` (Dexie): the rows that carry
`field` and whose value starts with `v` case-insensitively, in index order. -/
def dexWhere (tbl : List Row) (field v : String) : List (Nat × Row) :=
  jsSortBy (dexIdxCmp field) ((tbl.enum).filter fun e => dexMatches field v e.2)

/-- Model of `table.orderBy(field)` (Dexie): the rows that carry `field`, in index
order. -/
def dexOrderBy (tbl : List Row) (field : String) : List (Nat × Row) :=
  jsSortBy (dexIdxCmp field) ((tbl.enum).filter fun e => (rowGet e.2 field).isSome)

/-- The comparator of Dexie's `Collection.sortBy`
(`a < b ? -1 : a > b ? 1 : 0` on the extracted key-path values; a missing
value compares equal to everything). -/
def dexSortByCmp (field : String) (p q : Nat × Row) : Ordering :=
  match rowGet p.2 field, rowGet q.2 field with
  | some a, some b => cuCmp a b
  | _, _ => .eq

/-- The combined single-pass branch of `queryProjectRows` (source lines
310–318): one reversible index scan provides the filter, the order and the
count. -/
def dexCombined (tbl : List Row) (filterField v : String) (isDesc : Bool)
    (offset limit : Nat) : List Row × Nat :=
  let collection := dexWhere tbl filterField v
  let collection := if isDesc then collection.reverse else collection
  let total := collection.length
  (((collection.drop offset).take limit).map fun e => e.2, total)

/-- The independent filter-then-sort branch of `queryProjectRows` (source
lines 319–325): filter by index scan, then `sortBy(sortField)`, reverse when
descending, then slice. -/
def dexTwoStep (tbl : List Row) (filterField sortField v : String) (isDesc : Bool)
    (offset limit : Nat) : List Row × Nat :=
  let filteredCollection := dexWhere tbl filterField v
  let total := filteredCollection.length
  let sortedRows := jsSortBy (dexSortByCmp sortField) filteredCollection
  let arrangedRows := if isDesc then sortedRows.reverse else sortedRows
  (((arrangedRows.drop offset).take limit).map fun e => e.2, total)

/-- The filter-only branch of `queryProjectRows` (source lines 326–330). -/
def dexFilterOnly (tbl : List Row) (filterField v : String) (offset limit : Nat) :
    List Row × Nat :=
  let collection := dexWhere tbl filterField v
  (((collection.drop offset).take limit).map fun e => e.2, collection.length)

/-- The sort-only branch of `queryProjectRows` (source lines 331–339); note
`total` counts the whole table while the rows come from the index on
`sortField`. -/
def dexSortOnly (tbl : List Row) (sortField : String) (isDesc : Bool)
    (offset limit : Nat) : List Row × Nat :=
  let collection := dexOrderBy tbl sortField
  let collection := if isDesc then collection.reverse else collection
  (((collection.drop offset).take limit).map fun e => e.2, tbl.length)

/-- The function `buildSqlLikeQuery` (source lines 171–187) as its parts list; the filter
pattern is `LIKE \x27value%\x27` (starts-with semantics) built from the
*untrimmed* `filterValue` with single quotes doubled. -/
def buildSqlParts (projectId : String) (params : QueryProjectRowsParams) : List String :=
  let escapedValue := escapeQuotes (params.filterValue.getD "")
  let ff := params.filterField.getD ""
  let sf := params.sortField.getD ""
  let offset := (max params.page 1 - 1) * max params.pageSize 1
  ["SELECT * FROM \"" ++ projectId ++ "\""]
    ++ (if truthy params.filterField && truthy params.filterValue then
          ["WHERE \"" ++ ff ++ "\" LIKE " ++ squote ++ escapedValue ++ "%" ++ squote]
        else [])
    ++ (if truthy params.sortField then
          ["ORDER BY \"" ++ sf ++ "\" " ++
            (if params.sortDirection == some SortDirection.desc then "DESC" else "ASC")]
        else [])
    ++ ["LIMIT " ++ toString (max params.pageSize 1) ++ " OFFSET " ++ toString offset]

/-- The function `buildSqlLikeQuery` (source lines 171–187): `parts.join(" ")`. -/
def buildSqlLikeQuery (projectId : String) (params : QueryProjectRowsParams) : String :=
  String.intercalate " " (buildSqlParts projectId params)

/-- The function `queryProjectRows` (source lines 283–357) for a project whose store
exists and holds `tbl`; the strategy choice among the five branches follows
the source guards, and the result `fields` is derived from the returned
page. -/
def queryProjectRows (projectId : String) (tbl : List Row)
    (params : QueryProjectRowsParams) : QueryProjectRowsResult :=
  let normalizedFilterValue := jsTrim (params.filterValue.getD "")
  let page := max params.page 1
  let pageSize := max params.pageSize 1
  let offset := ((page - 1) * pageSize).toNat
  let limit := pageSize.toNat
  let isDesc := params.sortDirection == some SortDirection.desc
  let filterField := params.filterField.getD ""
  let sortField := params.sortField.getD ""
  let pair :=
    if hasFilter params && hasSort params && (filterField == sortField) then
      dexCombined tbl filterField normalizedFilterValue isDesc offset limit
    else if hasFilter params && hasSort params then
      dexTwoStep tbl filterField sortField normalizedFilterValue isDesc offset limit
    else if hasFilter params then
      dexFilterOnly tbl filterField normalizedFilterValue offset limit
    else if hasSort params then
      dexSortOnly tbl sortField isDesc offset limit
    else
      ((tbl.drop offset).take limit, tbl.length)
  let fields :=
    match pair.1 with
    | [] => []
    | r :: _ => rowKeys r
  ⟨pair.1, fields, pair.2, buildSqlLikeQuery projectId params⟩

/-- The unpaginated arranged row sequence of the strategy that
`queryProjectRows` selects: the same five-way branch dispatch, with each
branch's collection filtered, ordered and reversed exactly as there but not
yet sliced by offset/limit.  This is a specification device: the pagination
theorems show that `queryProjectRows` returns exactly the
`[offset, offset+limit)` slice of this sequence. -/
def dexArranged (tbl : List Row) (params : QueryProjectRowsParams) : List Row :=
  let normalizedFilterValue := jsTrim (params.filterValue.getD "")
  let isDesc := params.sortDirection == some SortDirection.desc
  let filterField := params.filterField.getD ""
  let sortField := params.sortField.getD ""
  if hasFilter params && hasSort params && (filterField == sortField) then
    (if isDesc then (dexWhere tbl filterField normalizedFilterValue).reverse
     else dexWhere tbl filterField normalizedFilterValue).map fun e => e.2
  else if hasFilter params && hasSort params then
    (if isDesc then
      (jsSortBy (dexSortByCmp sortField)
        (dexWhere tbl filterField normalizedFilterValue)).reverse
     else jsSortBy (dexSortByCmp sortField)
        (dexWhere tbl filterField normalizedFilterValue)).map fun e => e.2
  else if hasFilter params then
    (dexWhere tbl filterField normalizedFilterValue).map fun e => e.2
  else if hasSort params then
    (if isDesc then (dexOrderBy tbl sortField).reverse
     else dexOrderBy tbl sortField).map fun e => e.2
  else tbl

/-- The function `importCsv` (source lines 262–281) at the same store abstraction as
`CacheService.importCsv`: here the parse-error check precedes every store
operation (`importRowsIntoProjectStore` only runs on success). -/
def importCsv (store : Option (List Row)) (pr : ParseResult) :
    Option (List Row) × Except String (Nat × List String) :=
  if pr.errors.length > 0 then
    (store, .error (firstErrorMessage pr))
  else
    let rows := normalizeCsvRows pr.data
    let fields := csvFields rows
    (some rows, .ok (rows.length, fields))

end DexieService

/-! ## Chart aggregation (`buildFieldCountChartData`, identical in
`src/unnamed/part_005` and `src/unnamed/part_006`) -/

/-- The bucket label of one row: the trimmed value at `field`, or
`"(Empty)"` when that is empty. -/
def bucketLabelOf (row : Row) (field : String) : String :=
  let rawValue := jsTrim (rowValue row field)
  if rawValue = "" then "(Empty)" else rawValue

/-- One step `counts.set(value, (counts.get(value) ?? 0) + 1)` on a `Map` modelled as
an association list in first-insertion order. -/
def bumpCount : List (String × Nat) → String → List (String × Nat)
  | [], value => [(value, 1)]
  | (k, n) :: rest, value =>
    if k = value then (k, n + 1) :: rest else (k, n) :: bumpCount rest value

/-- The `Map` of value counts after the row loop. -/
def tallyCounts (rows : List Row) (field : String) : List (String × Nat) :=
  rows.foldl (fun counts row => bumpCount counts (bucketLabelOf row field)) []

/-- One chart bucket `\x7bvalue, count\x7d`. -/
structure ChartDatum where
  value : String
  count : Nat
deriving DecidableEq, Repr

/-- The chart sort comparator: count descending (`right.count - left.count`),
ties by `left.value.localeCompare(right.value, undefined, \x7bsensitivity:
"base"\x7d)`. -/
def chartCmp : ChartDatum → ChartDatum → Ordering :=
  compareLex (flip (Ordering.byKey ChartDatum.count compare))
    (Ordering.byKey ChartDatum.value cmpCI)

/-- The function `buildFieldCountChartData` (`part_005` lines 35–53, `part_006` lines
29–47). -/
def buildFieldCountChartData (rows : List Row) (field : String) : List ChartDatum :=
  jsSortBy chartCmp ((tallyCounts rows field).map fun p => ⟨p.1, p.2⟩)

/-- The count recorded in the tally for one bucket value (`counts.get(value)
?? 0`). -/
def lookupCount : List (String × Nat) → String → Nat
  | [], _ => 0
  | p :: rest, k => if p.1 = k then p.2 else lookupCount rest k

/-! Comparator laws, sort lemmas and comparator instances. -/

theorem lexCmp_swap (cmp : α → α → Ordering) [OrientedCmp cmp] :
    ∀ l₁ l₂ : List α, (lexCmp cmp l₁ l₂).swap = lexCmp cmp l₂ l₁
  | [], [] => rfl
  | [], _ :: _ => rfl
  | _ :: _, [] => rfl
  | a :: as, b :: bs => by
    simp only [lexCmp, Ordering.swap_then, OrientedCmp.symm a b,
      lexCmp_swap cmp as bs]

instance lexCmp_orientedCmp (cmp : α → α → Ordering) [OrientedCmp cmp] :
    OrientedCmp (lexCmp cmp) where
  symm l₁ l₂ := lexCmp_swap cmp l₁ l₂

theorem lexCmp_le_trans (cmp : α → α → Ordering) [TransCmp cmp] :
    ∀ {l₁ l₂ l₃ : List α}, lexCmp cmp l₁ l₂ ≠ .gt → lexCmp cmp l₂ l₃ ≠ .gt →
      lexCmp cmp l₁ l₃ ≠ .gt := by
  intro l₁
  induction l₁ with
  | nil =>
    intro l₂ l₃ _ _
    cases l₃ <;> simp [lexCmp]
  | cons a as ih =>
    intro l₂ l₃ h₁ h₂
    match l₂, l₃ with
    | [], _ => exact absurd rfl h₁
    | b :: bs, [] => exact absurd rfl h₂
    | b :: bs, c :: cs =>
      simp only [lexCmp, ne_eq, Ordering.then_eq_gt, not_or, not_and] at h₁ h₂ ⊢
      refine ⟨TransCmp.le_trans h₁.1 h₂.1, fun e1 e2 => ?_⟩
      match ab : cmp a b with
      | .gt => exact h₁.1 ab
      | .eq =>
        exact ih (h₁.2 ab) (h₂.2 (TransCmp.cmp_congr_left ab ▸ e1)) e2
      | .lt =>
        exact h₂.1 (OrientedCmp.cmp_eq_gt.2 (TransCmp.cmp_congr_left e1 ▸ ab))

instance lexCmp_transCmp (cmp : α → α → Ordering) [TransCmp cmp] :
    TransCmp (lexCmp cmp) where
  le_trans := lexCmp_le_trans cmp

instance swapCmp_orientedCmp (cmp : α → α → Ordering) [OrientedCmp cmp] :
    OrientedCmp (swapCmp cmp) where
  symm a b := by simp only [swapCmp, Ordering.swap_inj, OrientedCmp.symm a b]

theorem swapCmp_eq_gt (cmp : α → α → Ordering) (a b : α) :
    swapCmp cmp a b = .gt ↔ cmp a b = .lt := by
  cases h : cmp a b <;> simp [swapCmp, h, Ordering.swap]

instance swapCmp_transCmp (cmp : α → α → Ordering) [TransCmp cmp] :
    TransCmp (swapCmp cmp) where
  le_trans {a b c} h₁ h₂ := fun e =>
    TransCmp.ge_trans (fun e' => h₁ ((swapCmp_eq_gt cmp a b).2 e'))
      (fun e' => h₂ ((swapCmp_eq_gt cmp b c).2 e'))
      ((swapCmp_eq_gt cmp a c).1 e)

instance : TransCmp natPairCmp :=
  inferInstanceAs (TransCmp (compareLex (compareOn Prod.fst) (compareOn Prod.snd)))

instance : TransCmp cmpNumCI :=
  inferInstanceAs (TransCmp (Ordering.byKey numKey (lexCmp natPairCmp)))

instance : TransCmp cuCmp :=
  inferInstanceAs (TransCmp (Ordering.byKey cuKey (lexCmp compare)))

instance : TransCmp cmpCI :=
  inferInstanceAs (TransCmp (Ordering.byKey (fun s => cuKey (jsToLower s)) (lexCmp compare)))

theorem insertSorted_perm (cmp : α → α → Ordering) (x : α) :
    ∀ l : List α, List.Perm (insertSorted cmp x l) (x :: l)
  | [] => List.Perm.refl _
  | y :: ys => by
    unfold insertSorted
    split
    · exact ((insertSorted_perm cmp x ys).cons y).trans (List.Perm.swap x y ys)
    · exact List.Perm.refl _

theorem jsSortBy_perm (cmp : α → α → Ordering) : ∀ l : List α, List.Perm (jsSortBy cmp l) l
  | [] => List.Perm.refl _
  | x :: xs =>
    (insertSorted_perm cmp x (jsSortBy cmp xs)).trans ((jsSortBy_perm cmp xs).cons x)

theorem jsSortBy_length (cmp : α → α → Ordering) (l : List α) :
    (jsSortBy cmp l).length = l.length :=
  (jsSortBy_perm cmp l).length_eq

theorem mem_insertSorted (cmp : α → α → Ordering) (x a : α) (l : List α) :
    a ∈ insertSorted cmp x l ↔ a = x ∨ a ∈ l := by
  rw [(insertSorted_perm cmp x l).mem_iff, List.mem_cons]

theorem insertSorted_pairwise (cmp : α → α → Ordering) [TransCmp cmp] (x : α) :
    ∀ l : List α, l.Pairwise (fun a b => cmp a b ≠ .gt) →
      (insertSorted cmp x l).Pairwise (fun a b => cmp a b ≠ .gt)
  | [], _ => List.pairwise_singleton _ x
  | y :: ys, h => by
    rw [List.pairwise_cons] at h
    unfold insertSorted
    split
    · rename_i hgt
      rw [List.pairwise_cons]
      refine ⟨fun a ha => ?_, insertSorted_pairwise cmp x ys h.2⟩
      rcases (mem_insertSorted cmp x a ys).1 ha with rfl | ha'
      · exact fun e => absurd (OrientedCmp.cmp_eq_gt.1 e) (by simp [hgt])
      · exact h.1 a ha'
    · rename_i hle
      rw [List.pairwise_cons]
      refine ⟨fun a ha => ?_, List.pairwise_cons.2 h⟩
      rcases List.mem_cons.1 ha with rfl | ha'
      · exact hle
      · exact TransCmp.le_trans hle (h.1 a ha')

theorem jsSortBy_pairwise (cmp : α → α → Ordering) [TransCmp cmp] :
    ∀ l : List α, (jsSortBy cmp l).Pairwise (fun a b => cmp a b ≠ .gt)
  | [] => List.Pairwise.nil
  | x :: xs => insertSorted_pairwise cmp x _ (jsSortBy_pairwise cmp xs)

theorem insertSorted_of_head_le (cmp : α → α → Ordering) (x : α) (l : List α)
    (h : ∀ y ∈ l.head?, cmp x y ≠ .gt) : insertSorted cmp x l = x :: l := by
  cases l with
  | nil => rfl
  | cons y ys => simp [insertSorted, h y rfl]

/-- Sorting an already-sorted list is the identity. -/
theorem jsSortBy_of_pairwise (cmp : α → α → Ordering) :
    ∀ l : List α, l.Pairwise (fun a b => cmp a b ≠ .gt) → jsSortBy cmp l = l
  | [], _ => rfl
  | x :: xs, h => by
    rw [List.pairwise_cons] at h
    rw [jsSortBy, jsSortBy_of_pairwise cmp xs h.2]
    refine insertSorted_of_head_le cmp x xs fun y hy => ?_
    exact h.1 y (List.mem_of_mem_head? hy)

theorem insertSorted_filter_of_neg (cmp : α → α → Ordering) (p : α → Bool) (x : α)
    (hx : ¬ p x = true) :
    ∀ l : List α, (insertSorted cmp x l).filter p = l.filter p
  | [] => by simp [insertSorted, hx]
  | y :: ys => by
    unfold insertSorted
    split
    · simp only [List.filter_cons, insertSorted_filter_of_neg cmp p x hx ys]
    · simp [List.filter_cons, hx]

theorem insertSorted_filter_of_pos (cmp : α → α → Ordering) (p : α → Bool) (x : α)
    (hx : p x = true) :
    ∀ l : List α, (∀ y ∈ l, cmp x y = .gt → ¬ p y = true) →
      (insertSorted cmp x l).filter p = x :: l.filter p
  | [], _ => by simp [insertSorted, hx]
  | y :: ys, hcross => by
    unfold insertSorted
    split
    · rename_i hgt
      have hy : ¬ p y = true := hcross y (List.mem_cons_self y ys) hgt
      rw [List.filter_cons_of_neg (by simpa using hy), List.filter_cons_of_neg
        (by simpa using hy)]
      exact insertSorted_filter_of_pos cmp p x hx ys
        (fun z hz => hcross z (List.mem_cons_of_mem y hz))
    · simp [List.filter_cons, hx]

/-- Stability: the subsequence of elements of one comparator-equivalence class
is unchanged by the sort command (elements comparing `.eq` keep their relative
order). -/
theorem jsSortBy_filter_eq (cmp : α → α → Ordering) (p : α → Bool)
    (hp : ∀ a b, p a = true → p b = true → cmp a b = .eq) :
    ∀ l : List α, (jsSortBy cmp l).filter p = l.filter p
  | [] => rfl
  | x :: xs => by
    rw [jsSortBy]
    by_cases hx : p x = true
    · rw [insertSorted_filter_of_pos cmp p x hx _
        (fun y _ hgt hy => by simp [hp x y hx hy] at hgt),
        jsSortBy_filter_eq cmp p hp xs, List.filter_cons_of_pos hx]
    · rw [insertSorted_filter_of_neg cmp p x hx _,
        jsSortBy_filter_eq cmp p hp xs, List.filter_cons_of_neg (by simpa using hx)]

instance : TransCmp chartCmp :=
  inferInstanceAs (TransCmp (compareLex (flip (Ordering.byKey ChartDatum.count compare))
    (Ordering.byKey ChartDatum.value cmpCI)))

/-! ## Tally lemmas -/

theorem bumpCount_keys (v : String) :
    ∀ acc : List (String × Nat),
      (bumpCount acc v).map Prod.fst =
        if v ∈ acc.map Prod.fst then acc.map Prod.fst else acc.map Prod.fst ++ [v]
  | [] => by simp [bumpCount]
  | (k, n) :: rest => by
    by_cases hk : k = v
    · subst hk
      simp [bumpCount]
    · simp only [bumpCount, if_neg hk, List.map_cons, bumpCount_keys v rest]
      by_cases hv : v ∈ rest.map Prod.fst
      · simp [hv, Ne.symm hk]
      · simp [hv, Ne.symm hk]

theorem bumpCount_nodupKeys (v : String) (acc : List (String × Nat))
    (h : (acc.map Prod.fst).Nodup) : ((bumpCount acc v).map Prod.fst).Nodup := by
  rw [bumpCount_keys v acc]
  by_cases hv : v ∈ acc.map Prod.fst
  · simpa [hv]
  · simpa [hv, List.nodup_append] using h

theorem bumpCount_sum (v : String) :
    ∀ acc : List (String × Nat),
      ((bumpCount acc v).map Prod.snd).sum = ((acc.map Prod.snd).sum) + 1
  | [] => by simp [bumpCount]
  | (k, n) :: rest => by
    by_cases hk : k = v
    · simp [bumpCount, hk]
      omega
    · simp [bumpCount, hk, bumpCount_sum v rest]
      omega

theorem bumpCount_pos (v : String) :
    ∀ acc : List (String × Nat), (∀ p ∈ acc, 1 ≤ p.2) →
      ∀ p ∈ bumpCount acc v, 1 ≤ p.2
  | [], _ => by simp [bumpCount]
  | (k, n) :: rest, h => by
    by_cases hk : k = v
    · simp only [bumpCount, if_pos hk]
      intro p hp
      rcases List.mem_cons.1 hp with rfl | hp'
      · omega
      · exact h p (List.mem_cons_of_mem _ hp')
    · simp only [bumpCount, if_neg hk]
      intro p hp
      rcases List.mem_cons.1 hp with rfl | hp'
      · exact h _ (List.mem_cons_self _ _)
      · exact bumpCount_pos v rest (fun q hq => h q (List.mem_cons_of_mem _ hq)) p hp'

theorem lookupCount_bumpCount (v k : String) :
    ∀ acc : List (String × Nat),
      lookupCount (bumpCount acc v) k =
        if k = v then lookupCount acc k + 1 else lookupCount acc k
  | [] => by
    by_cases hkv : k = v
    · simp [bumpCount, lookupCount, hkv]
    · have hvk : ¬ v = k := fun h => hkv h.symm
      simp [bumpCount, lookupCount, hkv, hvk]
  | (k', n) :: rest => by
    by_cases hk'v : k' = v
    · subst hk'v
      by_cases hkk' : k = k'
      · subst hkk'
        simp [bumpCount, lookupCount]
      · have hk'k : ¬ k' = k := fun h => hkk' h.symm
        simp [bumpCount, lookupCount, hkk', hk'k]
    · by_cases hk'k : k' = k
      · subst hk'k
        have hkv : ¬ k' = v := hk'v
        simp [bumpCount, hk'v, lookupCount, hkv]
      · simp [bumpCount, hk'v, lookupCount, hk'k,
          lookupCount_bumpCount v k rest]

theorem mem_eq_lookupCount :
    ∀ counts : List (String × Nat), ∀ p ∈ counts,
      (counts.map Prod.fst).Nodup → p.2 = lookupCount counts p.1
  | [], p, hp, _ => by simp at hp
  | q :: rest, p, hp, hnd => by
    rcases List.mem_cons.1 hp with rfl | hp'
    · simp [lookupCount]
    · have hne : ¬ q.1 = p.1 := by
        intro he
        have h1 : p.1 ∈ rest.map Prod.fst := List.mem_map_of_mem Prod.fst hp'
        rw [List.map_cons, List.nodup_cons] at hnd
        exact hnd.1 (he ▸ h1)
      rw [show lookupCount (q :: rest) p.1 = if q.1 = p.1 then q.2
          else lookupCount rest p.1 from rfl, if_neg hne]
      exact mem_eq_lookupCount rest p hp'
        (by rw [List.map_cons, List.nodup_cons] at hnd; exact hnd.2)

theorem tallyCounts_go_lookup (field k : String) :
    ∀ (rows : List Row) (acc : List (String × Nat)),
      lookupCount (rows.foldl (fun c r => bumpCount c (bucketLabelOf r field)) acc) k
        = lookupCount acc k + rows.countP fun r => bucketLabelOf r field == k
  | [], acc => by simp
  | r :: rows, acc => by
    rw [List.foldl_cons, tallyCounts_go_lookup field k rows, List.countP_cons,
      lookupCount_bumpCount]
    by_cases hk : k = bucketLabelOf r field
    · simp [hk]
      omega
    · have h2 : ¬ (bucketLabelOf r field = k) := fun h => hk h.symm
      simp [hk, h2]

theorem tallyCounts_lookup (rows : List Row) (field k : String) :
    lookupCount (tallyCounts rows field) k
      = rows.countP fun r => bucketLabelOf r field == k := by
  rw [tallyCounts, tallyCounts_go_lookup]
  simp [lookupCount]

theorem tallyCounts_go_nodup (field : String) :
    ∀ (rows : List Row) (acc : List (String × Nat)),
      (acc.map Prod.fst).Nodup →
      ((rows.foldl (fun c r => bumpCount c (bucketLabelOf r field)) acc).map Prod.fst).Nodup
  | [], acc, h => h
  | r :: rows, acc, h =>
    tallyCounts_go_nodup field rows _ (bumpCount_nodupKeys _ acc h)

theorem tallyCounts_nodupKeys (rows : List Row) (field : String) :
    ((tallyCounts rows field).map Prod.fst).Nodup :=
  tallyCounts_go_nodup field rows [] List.Pairwise.nil

theorem tallyCounts_go_sum (field : String) :
    ∀ (rows : List Row) (acc : List (String × Nat)),
      ((rows.foldl (fun c r => bumpCount c (bucketLabelOf r field)) acc).map Prod.snd).sum
        = (acc.map Prod.snd).sum + rows.length
  | [], acc => by simp
  | r :: rows, acc => by
    rw [List.foldl_cons, tallyCounts_go_sum field rows, bumpCount_sum]
    simp
    omega

theorem tallyCounts_sum (rows : List Row) (field : String) :
    ((tallyCounts rows field).map Prod.snd).sum = rows.length := by
  rw [tallyCounts, tallyCounts_go_sum]
  simp

theorem tallyCounts_go_pos (field : String) :
    ∀ (rows : List Row) (acc : List (String × Nat)), (∀ p ∈ acc, 1 ≤ p.2) →
      ∀ p ∈ rows.foldl (fun c r => bumpCount c (bucketLabelOf r field)) acc, 1 ≤ p.2
  | [], acc, h => h
  | r :: rows, acc, h =>
    tallyCounts_go_pos field rows _ (bumpCount_pos _ acc h)

theorem tallyCounts_pos (rows : List Row) (field : String) :
    ∀ p ∈ tallyCounts rows field, 1 ≤ p.2 :=
  tallyCounts_go_pos field rows [] (by simp)

/-- C9: chart aggregation buckets rows by the trimmed value at the field
(empty values becoming the label `"(Empty)"`), every returned bucket's count
is the number of rows with that post-trim value, the output is sorted by
count descending with ties broken by value ascending case-insensitively, and
the concrete example `[\x7bstatus:"ok"\x7d, \x7bstatus:"ok"\x7d,
\x7bstatus:""\x7d]` aggregated on `status` yields
`[\x7bvalue:"ok", count:2\x7d, \x7bvalue:"(Empty)", count:1\x7d]`. -/
theorem buildFieldCountChartData_spec :
    (∀ (rows : List Row) (field : String), ∀ b ∈ buildFieldCountChartData rows field,
        b.count = rows.countP fun r => bucketLabelOf r field == b.value)
    ∧ (∀ (rows : List Row) (field : String),
        (buildFieldCountChartData rows field).Pairwise fun a b =>
          b.count < a.count ∨ (b.count = a.count ∧ cmpCI a.value b.value ≠ .gt))
    ∧ buildFieldCountChartData [[("status", "ok")], [("status", "ok")], [("status", "")]]
        "status" = [⟨"ok", 2⟩, ⟨"(Empty)", 1⟩] := by
  refine ⟨?_, ?_, by decide⟩
  · intro rows field b hb
    have hb' : b ∈ (tallyCounts rows field).map fun p => (⟨p.1, p.2⟩ : ChartDatum) :=
      (jsSortBy_perm chartCmp _).mem_iff.1 hb
    rcases List.mem_map.1 hb' with ⟨p, hp, rfl⟩
    have h1 := mem_eq_lookupCount _ p hp (tallyCounts_nodupKeys rows field)
    rw [tallyCounts_lookup rows field p.1] at h1
    exact h1
  · intro rows field
    refine (jsSortBy_pairwise chartCmp _).imp ?_
    intro a b hab
    rcases Nat.lt_trichotomy b.count a.count with hlt | heq | hgt
    · exact Or.inl hlt
    · refine Or.inr ⟨heq, fun e => hab ?_⟩
      show (compare b.count a.count).then (cmpCI a.value b.value) = .gt
      rw [show compare b.count a.count = .eq by
        simpa [Nat.compare_eq_eq] using heq]
      simpa [Ordering.then] using e
    · exact absurd (show chartCmp a b = .gt by
        show (compare b.count a.count).then (cmpCI a.value b.value) = .gt
        rw [Nat.compare_eq_gt.2 hgt]
        rfl) hab

/-- Witness for `buildFieldCountChartData_spec`: the bucket `(ok, 2)` of the
concrete example carries the count of rows whose trimmed `status` is `ok`. -/
theorem buildFieldCountChartData_spec_witness :
    (⟨"ok", 2⟩ : ChartDatum) ∈ buildFieldCountChartData
      [[("status", "ok")], [("status", "ok")], [("status", "")]] "status"
    ∧ (⟨"ok", 2⟩ : ChartDatum).count
        = ([[("status", "ok")], [("status", "ok")], [("status", "")]] : List Row).countP
            fun r => bucketLabelOf r "status" == (⟨"ok", 2⟩ : ChartDatum).value :=
  ⟨by decide, buildFieldCountChartData_spec.1 _ "status" _ (by decide)⟩

/-- C10: the bucket list is a partition of the input rows — bucket values are
pairwise distinct, every count is at least 1, and the counts sum to the
number of rows. -/
theorem buildFieldCountChartData_partition :
    ∀ (rows : List Row) (field : String),
      ((buildFieldCountChartData rows field).map ChartDatum.value).Nodup
      ∧ (∀ b ∈ buildFieldCountChartData rows field, 1 ≤ b.count)
      ∧ ((buildFieldCountChartData rows field).map ChartDatum.count).sum = rows.length := by
  intro rows field
  have hperm := jsSortBy_perm chartCmp
    ((tallyCounts rows field).map fun p => (⟨p.1, p.2⟩ : ChartDatum))
  refine ⟨?_, ?_, ?_⟩
  · simp only [buildFieldCountChartData]
    rw [(hperm.map ChartDatum.value).nodup_iff, List.map_map,
      show (ChartDatum.value ∘ fun p : String × Nat => (⟨p.1, p.2⟩ : ChartDatum))
        = Prod.fst from funext fun p => rfl]
    exact tallyCounts_nodupKeys rows field
  · intro b hb
    rcases List.mem_map.1 (hperm.mem_iff.1 hb) with ⟨p, hp, rfl⟩
    exact tallyCounts_pos rows field p hp
  · simp only [buildFieldCountChartData]
    rw [(hperm.map ChartDatum.count).sum_eq, List.map_map,
      show (ChartDatum.count ∘ fun p : String × Nat => (⟨p.1, p.2⟩ : ChartDatum))
        = Prod.snd from funext fun p => rfl]
    exact tallyCounts_sum rows field

/-- Witness for `buildFieldCountChartData_partition` at the concrete example
dataset. -/
theorem buildFieldCountChartData_partition_witness :
    1 ≤ (⟨"ok", 2⟩ : ChartDatum).count :=
  (buildFieldCountChartData_partition
    [[("status", "ok")], [("status", "ok")], [("status", "")]] "status").2.1 _ (by decide)

/-- C7 (counterexample): `normalizeCsvRows` keeps the original header string
as the key — it does not trim it (trimming happens earlier, in the parser's
`transformHeader`).  On the record `\x7b" a ": "v"\x7d` the surviving key is
`" a "`, not the trimmed `"a"` the claim prescribes. -/
theorem normalizeCsvRows_untrimmed_key :
    normalizeCsvRows [.mapping [(" a ", .vStr "v")]] = [[(" a ", "v")]]
    ∧ (" a " : String) ≠ "a" :=
  ⟨by decide, by decide⟩

/-- C7 (amended): `normalizeCsvRows` drops records that are not mappings,
keeps the remaining records' keys verbatim while dropping entries whose key
trims to empty, stringifies values (null/undefined become the empty string),
drops records left with zero keys, and the derived field list is the key
list of the first surviving record (empty when none survives). -/
theorem normalizeCsvRows_spec :
    ∀ (l : List RawRecord) (entries : List (String × RawValue)),
      normalizeCsvRows (.notMapping :: l) = normalizeCsvRows l
      ∧ normalizeCsvRows (.mapping entries :: l)
          = (if ((entries.filter fun kv => jsTrim kv.1 != "").map
                  fun kv => (kv.1, kv.2.toText)) = ([] : Row)
             then normalizeCsvRows l
             else ((entries.filter fun kv => jsTrim kv.1 != "").map
                  fun kv => (kv.1, kv.2.toText)) :: normalizeCsvRows l)
      ∧ (∀ r ∈ normalizeCsvRows l, r ≠ [] ∧ ∀ kv ∈ r, jsTrim kv.1 ≠ "")
      ∧ csvFields (normalizeCsvRows l)
          = ((normalizeCsvRows l).head?.map rowKeys).getD [] := by
  intro l entries
  refine ⟨?_, ?_, ?_, ?_⟩
  · simp [normalizeCsvRows, List.filterMap_cons]
  · by_cases hrow : ((entries.filter fun kv => jsTrim kv.1 != "").map
        fun kv => (kv.1, kv.2.toText)) = ([] : Row)
    · simp [normalizeCsvRows, List.filterMap_cons, hrow]
    · simp [normalizeCsvRows, List.filterMap_cons, hrow]
  · intro r hr
    rw [normalizeCsvRows, List.mem_filter] at hr
    refine ⟨by simpa using hr.2, ?_⟩
    rcases List.mem_map.1 hr.1 with ⟨entries', _, rfl⟩
    intro kv hkv
    rcases List.mem_map.1 hkv with ⟨kv', hkv', rfl⟩
    simpa using (List.mem_filter.1 hkv').2
  · cases h : normalizeCsvRows l <;> simp [csvFields, h, rowKeys]

/-- Witness for `normalizeCsvRows_spec`: the surviving record of the
counterexample input is nonempty and all its keys trim to nonempty. -/
theorem normalizeCsvRows_spec_witness :
    ([(" a ", "v")] : Row) ≠ []
    ∧ ∀ kv ∈ ([(" a ", "v")] : Row), jsTrim kv.1 ≠ "" :=
  (normalizeCsvRows_spec [.mapping [(" a ", .vStr "v")]] []).2.2.1 _ (by decide)

/-- C8 (counterexample): in the cache-backed variant, `importCsv` calls
`ensureProjectStore` *before* checking the parse result, so a failed import
on a project with no store leaves behind a newly created empty store — the
store state changes from `none` to `some []`. -/
theorem importCsv_store_created_on_error :
    CacheService.importCsv none ⟨[], ["Comma expected"]⟩
      = (some [], .error "Comma expected")
    ∧ some ([] : List Row) ≠ none :=
  ⟨rfl, by simp⟩

/-- C8 (amended): when the parser reports errors, both variants raise the
first reported message; the Dexie variant performs no store mutation at all,
while the cache variant first ensures the project store exists, so it returns
the store unchanged for an existing project but creates an empty store for a
project that had none. -/
theorem importCsv_parse_error_spec :
    ∀ (store : Option (List Row)) (pr : ParseResult), pr.errors ≠ [] →
      DexieService.importCsv store pr = (store, .error (firstErrorMessage pr))
      ∧ CacheService.importCsv store pr
          = (some (store.getD []), .error (firstErrorMessage pr)) := by
  intro store pr h
  have hlen : 0 < pr.errors.length := List.length_pos.2 h
  exact ⟨by simp [DexieService.importCsv, hlen], by simp [CacheService.importCsv, hlen]⟩

/-- Witness for `importCsv_parse_error_spec`: a failed import leaves an
existing Dexie-variant store untouched. -/
theorem importCsv_parse_error_spec_witness :
    DexieService.importCsv (some [[("a", "b")]]) ⟨[], ["Comma expected"]⟩
      = (some [[("a", "b")]], .error "Comma expected") :=
  (importCsv_parse_error_spec (some [[("a", "b")]]) ⟨[], ["Comma expected"]⟩
    (by decide)).1

/-- C5 (counterexample): in the cache-backed variant the result `fields` is
the stored field list, not the field list observed on the returned page — a
page beyond the last returns no rows yet non-empty `fields`. -/
theorem queryProjectRows_fields_on_empty_page :
    (CacheService.queryProjectRows "p" [[("a", "x")]] ["a"]
        ⟨2, 1, none, none, none, none⟩).rows = []
    ∧ (CacheService.queryProjectRows "p" [[("a", "x")]] ["a"]
        ⟨2, 1, none, none, none, none⟩).fields = ["a"]
    ∧ (["a"] : List String) ≠ [] :=
  ⟨by decide, by decide, by decide⟩

/-- C5 (amended): in the Dexie variant the result `fields` is exactly the
key list of the first returned row (empty when the page is empty); in the
cache variant it is the stored field list, which can be non-empty even when
the returned page is empty. -/
theorem queryProjectRows_fields_spec :
    ∀ (projectId : String) (tbl storedRows : List Row) (storedFields : List String)
      (params : QueryProjectRowsParams),
      (DexieService.queryProjectRows projectId tbl params).fields
        = (match (DexieService.queryProjectRows projectId tbl params).rows with
           | [] => []
           | r :: _ => rowKeys r)
      ∧ (CacheService.queryProjectRows projectId storedRows storedFields params).fields
          = storedFields := by
  intro projectId tbl storedRows storedFields params
  exact ⟨rfl, rfl⟩

/-- C6 (counterexample): the `queryDescription` guard uses the untrimmed
`filterValue`, while execution filters on the trimmed one — for a
whitespace-only filter value the SQL string contains a WHERE clause although
no filter is applied during execution. -/
theorem buildSqlLikeQuery_where_without_filter :
    ((CacheService.buildSqlParts "t" ⟨1, 10, none, none, some "a", some " "⟩).any
        fun s => jsStartsWith s "WHERE") = true
    ∧ CacheService.hasFilter ⟨1, 10, none, none, some "a", some " "⟩ = false
    ∧ ((DexieService.buildSqlParts "t" ⟨1, 10, none, none, some "a", some " "⟩).any
        fun s => jsStartsWith s "WHERE") = true
    ∧ DexieService.hasFilter ⟨1, 10, none, none, some "a", some " "⟩ = false :=
  ⟨by decide, by decide, by decide, by decide⟩

/-- C6 (amended): the generated query string contains a WHERE clause exactly
when `filterField` and the *untrimmed* `filterValue` are both truthy; its
LIKE pattern reflects the variant's matching semantics (`%value%` for the
contains variant, `value%` for the starts-with variant) built from the
untrimmed filter value with single quotes doubled; this guard coincides with
the execution guard whenever the filter value carries no surrounding
whitespace. -/
theorem buildSqlParts_spec :
    ∀ (projectId : String) (params : QueryProjectRowsParams),
      ((CacheService.buildSqlParts projectId params).any fun s => jsStartsWith s "WHERE")
        = (truthy params.filterField && truthy params.filterValue)
      ∧ ((DexieService.buildSqlParts projectId params).any fun s => jsStartsWith s "WHERE")
        = (truthy params.filterField && truthy params.filterValue)
      ∧ ((truthy params.filterField && truthy params.filterValue) = true →
          ("WHERE \"" ++ params.filterField.getD "" ++ "\" LIKE " ++ squote ++ "%"
              ++ escapeQuotes (params.filterValue.getD "") ++ "%" ++ squote)
            ∈ CacheService.buildSqlParts projectId params
          ∧ ("WHERE \"" ++ params.filterField.getD "" ++ "\" LIKE " ++ squote
              ++ escapeQuotes (params.filterValue.getD "") ++ "%" ++ squote)
            ∈ DexieService.buildSqlParts projectId params)
      ∧ (jsTrim (params.filterValue.getD "") = params.filterValue.getD "" →
          CacheService.hasFilter params
            = (truthy params.filterField && truthy params.filterValue)) := by
  intro projectId params
  have h1 : ∀ pid : String,
      jsStartsWith ("SELECT * FROM \"" ++ pid ++ "\"") "WHERE" = false := fun _ => rfl
  have h2 : ∀ a b : String,
      jsStartsWith ("WHERE \"" ++ a ++ "\" LIKE " ++ squote ++ "%" ++ b ++ "%" ++ squote)
        "WHERE" = true := fun _ _ => rfl
  have h2d : ∀ a b : String,
      jsStartsWith ("WHERE \"" ++ a ++ "\" LIKE " ++ squote ++ b ++ "%" ++ squote)
        "WHERE" = true := fun _ _ => rfl
  have h3 : ∀ a b : String,
      jsStartsWith ("ORDER BY \"" ++ a ++ "\" " ++ b) "WHERE" = false := fun _ _ => rfl
  have h4 : ∀ a b : String,
      jsStartsWith ("LIMIT " ++ a ++ " OFFSET " ++ b) "WHERE" = false := fun _ _ => rfl
  refine ⟨?_, ?_, ?_, ?_⟩
  · rcases Bool.eq_false_or_eq_true (truthy params.filterField && truthy params.filterValue)
      with hc | hc <;>
      rcases Bool.eq_false_or_eq_true (truthy params.sortField) with hs | hs <;>
      simp [CacheService.buildSqlParts, hc, hs, h1, h2, h3, h4]
  · rcases Bool.eq_false_or_eq_true (truthy params.filterField && truthy params.filterValue)
      with hc | hc <;>
      rcases Bool.eq_false_or_eq_true (truthy params.sortField) with hs | hs <;>
      simp [DexieService.buildSqlParts, hc, hs, h1, h2d, h3, h4]
  · intro hc
    rcases Bool.eq_false_or_eq_true (truthy params.sortField) with hs | hs <;>
      exact ⟨by simp [CacheService.buildSqlParts, hc, hs],
        by simp [DexieService.buildSqlParts, hc, hs]⟩
  · intro htrim
    simp [CacheService.hasFilter, truthy, htrim]

/-- Witness for `buildSqlParts_spec`: for an applied filter the cache-variant
query string carries the contains pattern `%x%`. -/
theorem buildSqlParts_spec_witness :
    ("WHERE \"" ++ (some "f").getD "" ++ "\" LIKE " ++ squote ++ "%"
        ++ escapeQuotes ((some "x").getD "") ++ "%" ++ squote)
      ∈ CacheService.buildSqlParts "t" ⟨1, 10, none, none, some "f", some "x"⟩ :=
  ((buildSqlParts_spec "t" ⟨1, 10, none, none, some "f", some "x"⟩).2.2.1 (by decide)).1

theorem length_filter_enumFrom (p : Row → Bool) :
    ∀ (l : List Row) (n : Nat),
      ((List.enumFrom n l).filter fun e => p e.2).length = l.countP p
  | [], _ => rfl
  | r :: rows, n => by
    simp only [List.enumFrom, List.filter_cons, List.countP_cons]
    by_cases h : p r
    · simp [h, length_filter_enumFrom p rows (n + 1)]
    · simp [h, length_filter_enumFrom p rows (n + 1)]

theorem dexWhere_length (tbl : List Row) (f v : String) :
    (DexieService.dexWhere tbl f v).length = tbl.countP (DexieService.dexMatches f v) := by
  rw [DexieService.dexWhere, jsSortBy_length, List.enum]
  exact length_filter_enumFrom _ tbl 0

theorem map_slice (f : α → β) (l : List α) (o n : Nat) :
    ((l.drop o).take n).map f = ((l.map f).drop o).take n := by
  rw [List.map_take, List.map_drop]

/-- The total reported by the Dexie variant: the matching count when a
filter is applied, the table size otherwise; the right-hand side mentions
neither `page` nor `pageSize`. -/
theorem dexTotal_eq (projectId : String) (tbl : List Row)
    (params : QueryProjectRowsParams) :
    (DexieService.queryProjectRows projectId tbl params).total
      = if DexieService.hasFilter params then
          tbl.countP (DexieService.dexMatches (params.filterField.getD "")
            (jsTrim (params.filterValue.getD "")))
        else tbl.length := by
  rcases Bool.eq_false_or_eq_true (DexieService.hasFilter params) with hf | hf <;>
    rcases Bool.eq_false_or_eq_true (DexieService.hasSort params) with hs | hs <;>
    rcases Bool.eq_false_or_eq_true
      (params.filterField.getD "" == params.sortField.getD "") with hfs | hfs <;>
    simp [DexieService.queryProjectRows, hf, hs, hfs, DexieService.dexCombined,
      DexieService.dexTwoStep, DexieService.dexFilterOnly, DexieService.dexSortOnly,
      dexWhere_length, apply_ite List.length, List.length_reverse]

/-- The rows returned by the Dexie variant are exactly the
`[offset, offset+limit)` slice of the arranged sequence of the selected
strategy. -/
theorem dexRows_eq_slice (projectId : String) (tbl : List Row)
    (params : QueryProjectRowsParams) :
    (DexieService.queryProjectRows projectId tbl params).rows
      = ((DexieService.dexArranged tbl params).drop
          ((max params.page 1 - 1) * max params.pageSize 1).toNat).take
          (max params.pageSize 1).toNat := by
  rcases Bool.eq_false_or_eq_true (DexieService.hasFilter params) with hf | hf <;>
    rcases Bool.eq_false_or_eq_true (DexieService.hasSort params) with hs | hs <;>
    rcases Bool.eq_false_or_eq_true
      (params.filterField.getD "" == params.sortField.getD "") with hfs | hfs <;>
    simp [DexieService.queryProjectRows, DexieService.dexArranged, hf, hs, hfs,
      DexieService.dexCombined, DexieService.dexTwoStep, DexieService.dexFilterOnly,
      DexieService.dexSortOnly, map_slice]

/-- Pages `page` and `page+1` (for `page ≥ 1`) are consecutive slices: their
concatenation is the double-length slice starting at the offset of
`page`. -/
theorem consecutive_slices (l : List Row) (page pageSize : Int) (hpage : 1 ≤ page) :
    ((l.drop ((max page 1 - 1) * max pageSize 1).toNat).take (max pageSize 1).toNat)
      ++ ((l.drop ((max (page + 1) 1 - 1) * max pageSize 1).toNat).take
          (max pageSize 1).toNat)
      = (l.drop ((max page 1 - 1) * max pageSize 1).toNat).take
          ((max pageSize 1).toNat + (max pageSize 1).toNat) := by
  have hmaxp : max page 1 = page := max_eq_left hpage
  have hmaxp1 : max (page + 1) 1 = page + 1 := max_eq_left (by omega)
  have hprod : (page + 1 - 1) * max pageSize 1
      = (page - 1) * max pageSize 1 + max pageSize 1 := by ring
  have hoff : ((page + 1 - 1) * max pageSize 1).toNat
      = ((page - 1) * max pageSize 1).toNat + (max pageSize 1).toNat := by
    rw [hprod, Int.toNat_add (mul_nonneg (by omega) (by omega)) (by omega)]
  rw [hmaxp, hmaxp1, hoff, List.take_add, List.drop_drop]

/-- C2 (counterexample): for a present-but-empty `filterField` with a
non-empty `filterValue` the engine applies no filter and returns the full
stored row count, while the claim's matching count over the (empty) filter
field is `0`. -/
theorem queryProjectRows_total_empty_filterField :
    (CacheService.queryProjectRows "p" [[("a", "x")]] ["a"]
        ⟨1, 10, none, none, some "", some "x"⟩).total = 1
    ∧ ([[("a", "x")]] : List Row).countP
        (CacheService.matchesFilter "" (jsToLower (jsTrim "x"))) = 0
    ∧ (1 : Nat) ≠ 0 :=
  ⟨by decide, by decide, by decide⟩

/-- C2 (amended): `total` equals the number of stored rows matching the
trimmed filter value on the filter field per the deployment's semantics
(case-insensitive contains in the cache variant, case-insensitive starts-with
in the Dexie variant) whenever a filter is applied — i.e. `filterField` is
present *and non-empty* and the trimmed `filterValue` is non-empty — and
equals the full stored row count otherwise; `page` and `pageSize` do not
occur on the right-hand side, so `total` is independent of them. -/
theorem queryProjectRows_total_spec :
    ∀ (projectId : String) (storedRows tbl : List Row) (storedFields : List String)
      (params : QueryProjectRowsParams),
      (CacheService.queryProjectRows projectId storedRows storedFields params).total
        = (if CacheService.hasFilter params then
            storedRows.countP
              (CacheService.matchesFilter (params.filterField.getD "")
                (jsToLower (jsTrim (params.filterValue.getD ""))))
          else storedRows.length)
      ∧ (DexieService.queryProjectRows projectId tbl params).total
        = (if DexieService.hasFilter params then
            tbl.countP (DexieService.dexMatches (params.filterField.getD "")
              (jsTrim (params.filterValue.getD "")))
          else tbl.length) := by
  intro projectId storedRows tbl storedFields params
  constructor
  · have hqp : (CacheService.queryProcessed storedRows params).length
        = (CacheService.queryFiltered storedRows params).length := by
      rw [CacheService.queryProcessed]
      rcases Bool.eq_false_or_eq_true (truthy params.sortField) with hs | hs <;>
        simp [hs, CacheService.sortRows, jsSortBy_length]
    show (CacheService.queryProcessed storedRows params).length = _
    rw [hqp, CacheService.queryFiltered]
    rcases Bool.eq_false_or_eq_true (CacheService.hasFilter params) with hf | hf <;>
      simp [hf, ← List.countP_eq_length_filter]
  · exact dexTotal_eq projectId tbl params

/-- C4 (counterexample): `page` and `pageSize` are clamped to at least 1 in
both variants, so page 0 and page 1 denote the same slice — increasing a
non-positive `page` by 1 returns exactly the rows of the "previous" page,
contradicting the claimed never-overlap property over every request. -/
theorem queryProjectRows_page_clamp_overlap :
    (CacheService.queryProjectRows "p" [[("a", "x")]] ["a"]
        ⟨0, 1, none, none, none, none⟩).rows = [[("a", "x")]]
    ∧ (CacheService.queryProjectRows "p" [[("a", "x")]] ["a"]
        ⟨1, 1, none, none, none, none⟩).rows = [[("a", "x")]]
    ∧ (DexieService.queryProjectRows "p" [[("a", "x")]]
        ⟨0, 1, none, none, none, none⟩).rows = [[("a", "x")]]
    ∧ (DexieService.queryProjectRows "p" [[("a", "x")]]
        ⟨1, 1, none, none, none, none⟩).rows = [[("a", "x")]]
    ∧ ([[("a", "x")]] : List Row) ≠ [] :=
  ⟨by decide, by decide, by decide, by decide, by decide⟩

/-- C4 (amended): in both variants the returned rows are the slice
`[(max(page,1)-1)·max(pageSize,1), offset+max(pageSize,1))` of the arranged
(filtered-and-sorted) row sequence of the selected strategy, clamped to the
available rows; a page beyond the last yields an empty row list with `total`
unchanged (`total` never depends on `page` or `pageSize`); and for `page ≥ 1`
pages `page` and `page+1` are consecutive disjoint slices (their
concatenation is the slice of twice the page size starting at the page's
offset) — for `page < 1` both clamp to the first page and may repeat rows. -/
theorem queryProjectRows_pagination_spec :
    ∀ (projectId : String) (storedRows tbl : List Row) (storedFields : List String)
      (params : QueryProjectRowsParams),
      (CacheService.queryProjectRows projectId storedRows storedFields params).rows
        = ((CacheService.queryProcessed storedRows params).drop
            ((max params.page 1 - 1) * max params.pageSize 1).toNat).take
            (max params.pageSize 1).toNat
      ∧ (CacheService.queryProjectRows projectId storedRows storedFields params).total
          = (CacheService.queryProcessed storedRows params).length
      ∧ ((CacheService.queryProcessed storedRows params).length
            ≤ ((max params.page 1 - 1) * max params.pageSize 1).toNat →
          (CacheService.queryProjectRows projectId storedRows storedFields params).rows
            = [])
      ∧ (1 ≤ params.page →
          (CacheService.queryProjectRows projectId storedRows storedFields params).rows
            ++ (CacheService.queryProjectRows projectId storedRows storedFields
                ⟨params.page + 1, params.pageSize, params.sortField, params.sortDirection,
                  params.filterField, params.filterValue⟩).rows
          = ((CacheService.queryProcessed storedRows params).drop
              ((max params.page 1 - 1) * max params.pageSize 1).toNat).take
              ((max params.pageSize 1).toNat + (max params.pageSize 1).toNat))
      ∧ (DexieService.queryProjectRows projectId tbl params).rows
          = ((DexieService.dexArranged tbl params).drop
              ((max params.page 1 - 1) * max params.pageSize 1).toNat).take
              (max params.pageSize 1).toNat
      ∧ (DexieService.queryProjectRows projectId tbl params).total
          = (if DexieService.hasFilter params then
              tbl.countP (DexieService.dexMatches (params.filterField.getD "")
                (jsTrim (params.filterValue.getD "")))
            else tbl.length)
      ∧ ((DexieService.dexArranged tbl params).length
            ≤ ((max params.page 1 - 1) * max params.pageSize 1).toNat →
          (DexieService.queryProjectRows projectId tbl params).rows = [])
      ∧ (1 ≤ params.page →
          (DexieService.queryProjectRows projectId tbl params).rows
            ++ (DexieService.queryProjectRows projectId tbl
                ⟨params.page + 1, params.pageSize, params.sortField,
                  params.sortDirection, params.filterField, params.filterValue⟩).rows
          = ((DexieService.dexArranged tbl params).drop
              ((max params.page 1 - 1) * max params.pageSize 1).toNat).take
              ((max params.pageSize 1).toNat + (max params.pageSize 1).toNat)) := by
  intro projectId storedRows tbl storedFields params
  refine ⟨rfl, rfl, ?_, ?_, dexRows_eq_slice projectId tbl params,
    dexTotal_eq projectId tbl params, ?_, ?_⟩
  · intro h
    show ((CacheService.queryProcessed storedRows params).drop _).take _ = []
    rw [List.drop_eq_nil_of_le h, List.take_nil]
  · intro hpage
    exact consecutive_slices (CacheService.queryProcessed storedRows params)
      params.page params.pageSize hpage
  · intro h
    rw [dexRows_eq_slice, List.drop_eq_nil_of_le h, List.take_nil]
  · intro hpage
    rw [dexRows_eq_slice projectId tbl params, dexRows_eq_slice projectId tbl
      ⟨params.page + 1, params.pageSize, params.sortField, params.sortDirection,
        params.filterField, params.filterValue⟩]
    exact consecutive_slices (DexieService.dexArranged tbl params)
      params.page params.pageSize hpage

/-- Witness for `queryProjectRows_pagination_spec`: in both variants a page
beyond the last is empty, and pages 1 and 2 of a two-row dataset concatenate
to the double-length slice starting at page 1's offset. -/
theorem queryProjectRows_pagination_spec_witness :
    (CacheService.queryProjectRows "p" [[("a", "x")]] ["a"]
        ⟨3, 2, none, none, none, none⟩).rows = []
    ∧ (CacheService.queryProjectRows "p" [[("a", "x")], [("a", "y")]] ["a"]
          ⟨1, 1, none, none, none, none⟩).rows
        ++ (CacheService.queryProjectRows "p" [[("a", "x")], [("a", "y")]] ["a"]
          ⟨1 + 1, 1, none, none, none, none⟩).rows
      = ((CacheService.queryProcessed [[("a", "x")], [("a", "y")]]
          ⟨1, 1, none, none, none, none⟩).drop
          ((max (1 : Int) 1 - 1) * max (1 : Int) 1).toNat).take
          ((max (1 : Int) 1).toNat + (max (1 : Int) 1).toNat)
    ∧ (DexieService.queryProjectRows "p" [[("a", "x")]]
        ⟨3, 2, none, none, none, none⟩).rows = []
    ∧ (DexieService.queryProjectRows "p" [[("a", "x")], [("a", "y")]]
          ⟨1, 1, none, none, none, none⟩).rows
        ++ (DexieService.queryProjectRows "p" [[("a", "x")], [("a", "y")]]
          ⟨1 + 1, 1, none, none, none, none⟩).rows
      = ((DexieService.dexArranged [[("a", "x")], [("a", "y")]]
          ⟨1, 1, none, none, none, none⟩).drop
          ((max (1 : Int) 1 - 1) * max (1 : Int) 1).toNat).take
          ((max (1 : Int) 1).toNat + (max (1 : Int) 1).toNat) :=
  ⟨(queryProjectRows_pagination_spec "p" [[("a", "x")]] [[("a", "x")]] ["a"]
      ⟨3, 2, none, none, none, none⟩).2.2.1 (by decide),
    (queryProjectRows_pagination_spec "p" [[("a", "x")], [("a", "y")]]
      [[("a", "x")], [("a", "y")]] ["a"] ⟨1, 1, none, none, none, none⟩).2.2.2.1
      (by decide),
    (queryProjectRows_pagination_spec "p" [[("a", "x")]] [[("a", "x")]] ["a"]
      ⟨3, 2, none, none, none, none⟩).2.2.2.2.2.2.1 (by decide),
    (queryProjectRows_pagination_spec "p" [[("a", "x")], [("a", "y")]]
      [[("a", "x")], [("a", "y")]] ["a"] ⟨1, 1, none, none, none, none⟩).2.2.2.2.2.2.2
      (by decide)⟩

instance rowKeyCmp_transCmp (f : String) : TransCmp (CacheService.rowKeyCmp f) :=
  inferInstanceAs (TransCmp (Ordering.byKey (fun r : Row => numKey (rowValue r f))
    (lexCmp natPairCmp)))

instance rowCmp_transCmp (f : String) :
    ∀ dir : SortDirection, TransCmp (CacheService.rowCmp f dir)
  | .asc => inferInstanceAs (TransCmp (CacheService.rowKeyCmp f))
  | .desc => inferInstanceAs (TransCmp (swapCmp (CacheService.rowKeyCmp f)))

/-- A row whose keys all trim to nonempty has no empty-string key, hence the
empty-string field reads as the empty string. -/
theorem rowValue_empty_key (r : Row) (h : ∀ kv ∈ r, jsTrim kv.1 ≠ "") :
    rowValue r "" = "" := by
  have hnone : r.find? (fun kv => kv.1 == "") = none := by
    rw [List.find?_eq_none]
    intro kv hkv
    simp only [beq_iff_eq]
    intro he
    exact h kv hkv (by simp [he, jsTrim, trimChars])
  simp [rowValue, rowGet, hnone]

theorem mem_queryFiltered (storedRows : List Row) (params : QueryProjectRowsParams)
    (a : Row) (ha : a ∈ CacheService.queryFiltered storedRows params) :
    a ∈ storedRows := by
  rw [CacheService.queryFiltered] at ha
  by_cases hf : CacheService.hasFilter params = true
  · rw [if_pos hf] at ha
    exact (List.mem_filter.1 ha).1
  · rw [if_neg hf] at ha
    exact ha

theorem rowCmp_eq_of_eq_value (f : String) (dir : SortDirection) (a b : Row)
    (h : rowValue a f = rowValue b f) : CacheService.rowCmp f dir a b = .eq := by
  have hk : CacheService.rowKeyCmp f a b = .eq := by
    rw [CacheService.rowKeyCmp]
    show lexCmp natPairCmp (numKey (rowValue a f)) (numKey (rowValue b f)) = .eq
    rw [h]
    exact OrientedCmp.cmp_refl
  cases dir
  · exact hk
  · show (CacheService.rowKeyCmp f a b).swap = .eq
    rw [hk]
    rfl

instance dexIdxCmp_transCmp (f : String) : TransCmp (DexieService.dexIdxCmp f) :=
  inferInstanceAs (TransCmp (compareLex
    (Ordering.byKey (fun p : Nat × Row => rowValue p.2 f) cuCmp)
    (Ordering.byKey Prod.fst compare)))

/-- C3 (counterexample): the Dexie variant's `orderBy` branch (source lines
331–339) returns rows in code-unit index order, not the claimed
case-insensitive numeric-aware order: sorting ascending on `v` yields
`"10"` before `"2"` although the claimed comparison puts `"2"` strictly
first, and `"Apple"` before `"ant"` although the claimed comparison puts
`"ant"` strictly first. -/
theorem dexQueryProjectRows_sort_not_numeric :
    (DexieService.queryProjectRows "p" [[("v", "10")], [("v", "2")]]
        ⟨1, 10, some "v", none, none, none⟩).rows
      = [[("v", "10")], [("v", "2")]]
    ∧ cmpNumCI "2" "10" = .lt
    ∧ (DexieService.queryProjectRows "p" [[("v", "Apple")], [("v", "ant")]]
        ⟨1, 10, some "v", none, none, none⟩).rows
      = [[("v", "Apple")], [("v", "ant")]]
    ∧ cmpNumCI "ant" "Apple" = .lt :=
  ⟨by decide, by decide, by decide, by decide⟩

/-- C3 (amended): the two variants order differently.  In the cache variant,
for every dataset satisfying the normalizer invariant (every key trims to
nonempty) and every request whose `sortField` is present, `queryProjectRows`
serves its page from a processed list that is a permutation of the filtered
rows, ordered by the case-insensitive numeric-aware comparison of the sort
field's text value in the direction given by `sortDirection` (ascending by
default — a missing `sortDirection` yields the same result as an explicit
ascending one), stably in both directions (rows with equal sort-field values
keep their relative storage order), with numeric awareness pinned by the
concrete case `"10"` after `"2"`.  In the Dexie variant, a sort-only request
is served from the `orderBy` index scan: only the rows carrying the sort
field, in code-unit order of the raw value with ties by insertion position
(case-sensitive, not numeric-aware), reversed wholesale when descending. -/
theorem queryProjectRows_sort_spec :
    ∀ (projectId : String) (storedRows : List Row) (storedFields : List String)
      (params : QueryProjectRowsParams) (f : String),
      (∀ r ∈ storedRows, ∀ kv ∈ r, jsTrim kv.1 ≠ "") →
      params.sortField = some f →
      (List.Perm (CacheService.queryProcessed storedRows params)
          (CacheService.queryFiltered storedRows params)
        ∧ (CacheService.queryProcessed storedRows params).Pairwise
            (fun a b =>
              CacheService.rowCmp f (params.sortDirection.getD .asc) a b ≠ .gt)
        ∧ (∀ v : String,
            (CacheService.queryProcessed storedRows params).filter
                (fun r => rowValue r f == v)
              = (CacheService.queryFiltered storedRows params).filter
                (fun r => rowValue r f == v))
        ∧ (CacheService.queryProjectRows projectId storedRows storedFields params).rows
            = ((CacheService.queryProcessed storedRows params).drop
                ((max params.page 1 - 1) * max params.pageSize 1).toNat).take
                (max params.pageSize 1).toNat)
      ∧ (params.sortDirection = none →
          CacheService.queryProjectRows projectId storedRows storedFields params
            = CacheService.queryProjectRows projectId storedRows storedFields
                ⟨params.page, params.pageSize, params.sortField, some .asc,
                  params.filterField, params.filterValue⟩)
      ∧ CacheService.sortRows [[("v", "10")], [("v", "2")]] "v" .asc
          = [[("v", "2")], [("v", "10")]]
      ∧ (∀ tbl : List Row, DexieService.hasFilter params = false → f ≠ "" →
          (DexieService.queryProjectRows projectId tbl params).rows
            = (((if params.sortDirection == some SortDirection.desc
                  then (DexieService.dexOrderBy tbl f).reverse
                  else DexieService.dexOrderBy tbl f).map fun e => e.2).drop
                ((max params.page 1 - 1) * max params.pageSize 1).toNat).take
                (max params.pageSize 1).toNat
          ∧ (DexieService.dexOrderBy tbl f).Pairwise
              (fun p q => DexieService.dexIdxCmp f p q ≠ .gt)) := by
  intro projectId storedRows storedFields params f hwf hsf
  refine ⟨?_, ?_, by decide, ?_⟩
  · by_cases hf : f = ""
    · subst hf
      have hproc : CacheService.queryProcessed storedRows params
          = CacheService.queryFiltered storedRows params := by
        rw [CacheService.queryProcessed]
        have : truthy params.sortField = false := by simp [truthy, hsf]
        simp [this]
      refine ⟨hproc ▸ List.Perm.refl _, ?_, fun v => hproc ▸ rfl, rfl⟩
      rw [hproc]
      refine List.pairwise_of_forall_mem_list ?_
      intro a ha b hb
      have hva : rowValue a "" = "" :=
        rowValue_empty_key a (hwf a (mem_queryFiltered _ _ a ha))
      have hvb : rowValue b "" = "" :=
        rowValue_empty_key b (hwf b (mem_queryFiltered _ _ b hb))
      rw [rowCmp_eq_of_eq_value "" _ a b (hva.trans hvb.symm)]
      simp
    · have htruthy : truthy params.sortField = true := by
        simp [truthy, hsf]
        exact hf
      have htruthy' : truthy (some f) = true := by
        rw [← hsf]
        exact htruthy
      have hproc : CacheService.queryProcessed storedRows params
          = CacheService.sortRows (CacheService.queryFiltered storedRows params) f
              (params.sortDirection.getD .asc) := by
        rw [CacheService.queryProcessed, hsf]
        simp [htruthy']
      refine ⟨?_, ?_, ?_, rfl⟩
      · rw [hproc]
        exact jsSortBy_perm _ _
      · rw [hproc]
        exact jsSortBy_pairwise _ _
      · intro v
        rw [hproc, CacheService.sortRows]
        exact jsSortBy_filter_eq _ _
          (fun a b ha hb => rowCmp_eq_of_eq_value f _ a b
            (by rw [beq_iff_eq.1 ha, beq_iff_eq.1 hb])) _
  · intro hdir
    obtain ⟨pg, ps, sf, sd, ffld, fv⟩ := params
    simp only at hdir
    subst hdir
    rfl
  · intro tbl hnf hne
    have hhs : DexieService.hasSort params = true := by
      simp [DexieService.hasSort, truthy, hsf]
      exact hne
    constructor
    · rw [dexRows_eq_slice projectId tbl params]
      have ha : DexieService.dexArranged tbl params
          = (if params.sortDirection == some SortDirection.desc
              then (DexieService.dexOrderBy tbl f).reverse
              else DexieService.dexOrderBy tbl f).map fun e => e.2 := by
        simp only [DexieService.dexArranged, hsf, Option.getD_some]
        simp [hnf, hhs]
      rw [ha]
    · rw [DexieService.dexOrderBy]
      exact jsSortBy_pairwise _ _

/-- Witness for `queryProjectRows_sort_spec`: the processed list of a
numeric-sort request over `\x7bv:"10"\x7d, \x7bv:"2"\x7d` is a permutation
of the filtered rows. -/
theorem queryProjectRows_sort_spec_witness :
    List.Perm
      (CacheService.queryProcessed [[("v", "10")], [("v", "2")]]
        ⟨1, 10, some "v", none, none, none⟩)
      (CacheService.queryFiltered [[("v", "10")], [("v", "2")]]
        ⟨1, 10, some "v", none, none, none⟩) :=
  (queryProjectRows_sort_spec "p" [[("v", "10")], [("v", "2")]] ["v"]
    ⟨1, 10, some "v", none, none, none⟩ "v" (by decide) rfl).1.1

theorem mem_dexWhere_matches (tbl : List Row) (f v : String) (p : Nat × Row)
    (hp : p ∈ DexieService.dexWhere tbl f v) : DexieService.dexMatches f v p.2 = true := by
  rw [DexieService.dexWhere] at hp
  have hp' := (jsSortBy_perm (DexieService.dexIdxCmp f) _).mem_iff.1 hp
  exact (List.mem_filter.1 hp').2

/-- An index scan is already sorted for Dexie's `sortBy` on the same field:
the scan is ordered by (value, primary key), every scanned row carries the
field, and `sortBy` compares by value alone, so re-sorting is the
identity. -/
theorem dexSortBy_dexWhere (tbl : List Row) (f v : String) :
    jsSortBy (DexieService.dexSortByCmp f) (DexieService.dexWhere tbl f v)
      = DexieService.dexWhere tbl f v := by
  apply jsSortBy_of_pairwise
  have h1 : (DexieService.dexWhere tbl f v).Pairwise
      (fun p q => DexieService.dexIdxCmp f p q ≠ .gt) := by
    rw [DexieService.dexWhere]
    exact jsSortBy_pairwise _ _
  refine h1.imp_of_mem ?_
  intro p q hpmem hqmem hpq e
  apply hpq
  have hps : (rowGet p.2 f).isSome = true := by
    have h := mem_dexWhere_matches tbl f v p hpmem
    rw [DexieService.dexMatches, Bool.and_eq_true] at h
    exact h.1
  have hqs : (rowGet q.2 f).isSome = true := by
    have h := mem_dexWhere_matches tbl f v q hqmem
    rw [DexieService.dexMatches, Bool.and_eq_true] at h
    exact h.1
  obtain ⟨a, ha⟩ := Option.isSome_iff_exists.1 hps
  obtain ⟨b, hb⟩ := Option.isSome_iff_exists.1 hqs
  rw [DexieService.dexSortByCmp, ha, hb] at e
  change cuCmp a b = Ordering.gt at e
  show (cuCmp (rowValue p.2 f) (rowValue q.2 f)).then (compare p.1 q.1) = .gt
  rw [rowValue, ha, rowValue, hb, Option.getD_some, Option.getD_some, e]
  rfl

theorem dexCombined_eq (tbl : List Row) (f v : String) (isDesc : Bool)
    (offset limit : Nat) :
    DexieService.dexCombined tbl f v isDesc offset limit
      = DexieService.dexTwoStep tbl f f v isDesc offset limit := by
  rw [DexieService.dexCombined, DexieService.dexTwoStep, dexSortBy_dexWhere]
  cases isDesc <;> simp [List.length_reverse]

/-- C1: when the filter field equals the sort field (with a non-empty
trimmed filter value), the combined single-pass branch of the Dexie variant's
`queryProjectRows` — one reversible index scan providing filter, order,
count and page — returns exactly the rows (in the same order), total and
pagination of the independent filter-then-sort branch applied to the same
field, and `queryProjectRows` itself serves such requests through that
equivalent computation. -/
theorem queryProjectRows_combined_equiv :
    ∀ (tbl : List Row) (projectId f : String) (params : QueryProjectRowsParams)
      (v : String) (isDesc : Bool) (offset limit : Nat),
      jsTrim v ≠ "" →
      DexieService.dexCombined tbl f v isDesc offset limit
        = DexieService.dexTwoStep tbl f f v isDesc offset limit
      ∧ (params.filterField = some f → params.sortField = some f → f ≠ "" →
          jsTrim (params.filterValue.getD "") ≠ "" →
          (DexieService.queryProjectRows projectId tbl params).rows
            = (DexieService.dexTwoStep tbl f f (jsTrim (params.filterValue.getD ""))
                (params.sortDirection == some SortDirection.desc)
                ((max params.page 1 - 1) * max params.pageSize 1).toNat
                (max params.pageSize 1).toNat).1
          ∧ (DexieService.queryProjectRows projectId tbl params).total
            = (DexieService.dexTwoStep tbl f f (jsTrim (params.filterValue.getD ""))
                (params.sortDirection == some SortDirection.desc)
                ((max params.page 1 - 1) * max params.pageSize 1).toNat
                (max params.pageSize 1).toNat).2) := by
  intro tbl projectId f params v isDesc offset limit hv
  refine ⟨dexCombined_eq tbl f v isDesc offset limit, ?_⟩
  intro hff hsf hne htrim
  have hhf : DexieService.hasFilter params = true := by
    simp [DexieService.hasFilter, hff, truthy]
    exact ⟨hne, htrim⟩
  have hhs : DexieService.hasSort params = true := by
    simp [DexieService.hasSort, hsf, truthy]
    exact hne
  have heq : (params.filterField.getD "" == params.sortField.getD "") = true := by
    simp [hff, hsf]
  have hrw : DexieService.queryProjectRows projectId tbl params
      = ⟨(DexieService.dexTwoStep tbl f f (jsTrim (params.filterValue.getD ""))
            (params.sortDirection == some SortDirection.desc)
            ((max params.page 1 - 1) * max params.pageSize 1).toNat
            (max params.pageSize 1).toNat).1,
          match (DexieService.dexTwoStep tbl f f (jsTrim (params.filterValue.getD ""))
            (params.sortDirection == some SortDirection.desc)
            ((max params.page 1 - 1) * max params.pageSize 1).toNat
            (max params.pageSize 1).toNat).1 with
          | [] => []
          | r :: _ => rowKeys r,
          (DexieService.dexTwoStep tbl f f (jsTrim (params.filterValue.getD ""))
            (params.sortDirection == some SortDirection.desc)
            ((max params.page 1 - 1) * max params.pageSize 1).toNat
            (max params.pageSize 1).toNat).2,
          DexieService.buildSqlLikeQuery projectId params⟩ := by
    rw [DexieService.queryProjectRows]
    simp only [hhf, hhs, heq, Bool.and_self, Bool.true_and, if_pos]
    simp only [hff, Option.getD_some]
    rw [dexCombined_eq]
  rw [hrw]
  exact ⟨rfl, rfl⟩

/-- Witness for `queryProjectRows_combined_equiv`: both strategies agree on
a concrete mixed-case dataset filtered and sorted descending on `v`. -/
theorem queryProjectRows_combined_equiv_witness :
    DexieService.dexCombined [[("v", "Apple")], [("v", "ant")], [("v", "apple")]]
        "v" "a" true 0 10
      = DexieService.dexTwoStep [[("v", "Apple")], [("v", "ant")], [("v", "apple")]]
        "v" "v" "a" true 0 10 :=
  (queryProjectRows_combined_equiv [[("v", "Apple")], [("v", "ant")], [("v", "apple")]]
    "p" "v" ⟨1, 10, none, none, none, none⟩ "a" true 0 10 (by decide)).1

end CsVista
